import Mathlib

set_option maxRecDepth 16000

/-!
Verification of the go-diskfs core: shallow embedding of the MBR partition
entry codec and partition content writer, the disk-level partition dispatch,
the squashfs read-only filesystem front end, and the generic ordered-compare
helpers, together with theorems settling the frozen claims about them.

Bytes are modelled as `Nat` values below 256; byte slices as `List Nat`;
Go `int`/`int64` values as `Int` where signedness matters; fallible Go
functions as `Except`/`Option` returns.  Loops are embedded as recursive
functions; where the Go loop's bound is not structural, the recursion runs
on a fuel argument initialized so that it never runs out.
-/

namespace gopath

/-- The backtrack scan of Go `path.Clean` for a `..` element: starting from
write position `w` (the buffer length after the initial decrement), step left
while the position is above `dotdot` and the character there is not a slash;
the result is the new write position (the prefix length kept). -/
def cleanBack (out : List Char) (dotdot : Nat) : Nat → Nat
  | 0 => 0
  | w + 1 =>
    if dotdot < w + 1 ∧ out.getD (w + 1) ' ' ≠ '/' then cleanBack out dotdot w
    else w + 1

/-- The main loop of Go `path.Clean`, one iteration per list step: skip empty
elements and `.` elements, backtrack (or emit `..` when not rooted) for `..`
elements, and copy real elements preceded by a slash when needed.  `out` is
the output buffer, `dotdot` the limit below which `..` may not backtrack.
The fuel argument only makes the recursion structural; every iteration
consumes at least one input character, so fuel `≥ input length` is never
exhausted. -/
def cleanLoop (rooted : Bool) : Nat → List Char → Nat → List Char → List Char
  | 0, out, _, _ => out
  | fuel + 1, out, dotdot, input =>
    match input with
    | [] => out
    | c :: rest =>
      if c = '/' then cleanLoop rooted fuel out dotdot rest
      else if c = '.' ∧ (rest = [] ∨ rest.head? = some '/') then
        cleanLoop rooted fuel out dotdot rest
      else if c = '.' ∧ rest.head? = some '.' ∧
          (rest.tail = [] ∨ rest.tail.head? = some '/') then
        if dotdot < out.length then
          cleanLoop rooted fuel (out.take (cleanBack out dotdot (out.length - 1)))
            dotdot rest.tail
        else if rooted = false then
          let out2 := (if 0 < out.length then out ++ ['/'] else out) ++ ['.', '.']
          cleanLoop rooted fuel out2 out2.length rest.tail
        else cleanLoop rooted fuel out dotdot rest.tail
      else
        let out2 :=
          (if (rooted ∧ out.length ≠ 1) ∨ (¬rooted ∧ out.length ≠ 0) then out ++ ['/']
           else out) ++ input.takeWhile (fun x => x ≠ '/')
        cleanLoop rooted fuel out2 dotdot (input.dropWhile (fun x => x ≠ '/'))

/-- Go `path.Clean`: shortest lexical equivalent of the path ("" becomes ".",
repeated slashes collapse, `.` and `..` elements are resolved). -/
def clean (p : String) : String :=
  if p = "" then "."
  else
    let cs := p.toList
    let rooted := cs.head? = some '/'
    let out :=
      if rooted then cleanLoop true cs.length ['/'] 1 (cs.drop 1)
      else cleanLoop false (cs.length + 1) [] 0 cs
    if out.length = 0 then "." else String.mk out

/-- Go `path.Dir`: everything up to and including the final slash, cleaned;
a path with no slash gives ".". -/
def dir (p : String) : String :=
  clean (String.mk ((p.toList.reverse.dropWhile (fun c => c ≠ '/')).reverse))

/-- Go `path.Base`: the last element of the path after trailing slashes are
removed; "" gives "." and an all-slash path gives "/". -/
def base (p : String) : String :=
  if p = "" then "."
  else
    let stripped := p.toList.reverse.dropWhile (fun c => c = '/')
    if stripped = [] then "/"
    else String.mk ((stripped.takeWhile (fun c => c ≠ '/')).reverse)

end gopath

namespace mbr

/-- Modelled from the spec: the file `partition/mbr/partition.go` is not part
of the sample (only its internal test is), so the MBR partition entry and its
codec are modelled from the spec: a 16-byte entry holding a bootable flag
(byte 0x00 or 0x80), a packed CHS start triple, a one-byte type code, a packed
CHS end triple, and little-endian 32-bit LBA start and sector count.  Per the
spec's design note the lossless choice is taken: the codec preserves the
caller-supplied CHS bytes verbatim instead of recomputing them from the LBA
fields. -/
structure Partition where
  Bootable : Bool
  StartHead : Nat
  StartSector : Nat
  StartCylinder : Nat
  PartType : Nat
  EndHead : Nat
  EndSector : Nat
  EndCylinder : Nat
  Start : Nat
  Size : Nat
  deriving DecidableEq

/-- Modelled from the spec: CHS fields are packed as three bytes
`{head, ((sector & 0x3F) | ((cylinder >> 2) & 0xC0)), (cylinder & 0xFF)}`;
this is the second byte of that triple. -/
def packCHSByte (sector cylinder : Nat) : Nat :=
  (sector &&& 63) ||| ((cylinder >>> 2) &&& 192)

/-- Modelled from the spec: serialize one MBR partition entry to its exact
16-byte on-disk form (boot flag, CHS start, type, CHS end, 32-bit LE start
LBA, 32-bit LE sector count).  CHS bytes are the caller-supplied values,
packed; they are not recomputed from the LBA fields. -/
def Partition.toBytes (p : Partition) : List Nat :=
  [ (if p.Bootable then 128 else 0),
    p.StartHead,
    packCHSByte p.StartSector p.StartCylinder,
    p.StartCylinder &&& 255,
    p.PartType,
    p.EndHead,
    packCHSByte p.EndSector p.EndCylinder,
    p.EndCylinder &&& 255,
    p.Start % 256, p.Start / 256 % 256, p.Start / 65536 % 256, p.Start / 16777216 % 256,
    p.Size % 256, p.Size / 256 % 256, p.Size / 65536 % 256, p.Size / 16777216 % 256 ]

/-- The error text used when the input slice is not exactly 16 bytes, as
asserted by `TestFromBytes` in `partition_internal_test.go`. -/
def lengthError (n : Nat) : String :=
  "data for partition was " ++ toString n ++ " bytes instead of expected 16"

/-- Modelled from the spec: decode one 16-byte MBR partition entry.  Fails
with the exact-length message when the slice is not 16 bytes, and with
"invalid partition" when the bootable byte is neither 0x00 nor 0x80 (both
messages as asserted by `TestFromBytes`).  CHS triples are unpacked from
their three packed bytes. -/
def partitionFromBytes (b : List Nat) : Except String Partition :=
  if b.length ≠ 16 then .error (lengthError b.length)
  else
    let g : Nat → Nat := fun i => b.getD i 0
    if g 0 = 0 ∨ g 0 = 128 then
      .ok
        { Bootable := g 0 = 128
          StartHead := g 1
          StartSector := g 2 &&& 63
          StartCylinder := ((g 2 &&& 192) <<< 2) ||| g 3
          PartType := g 4
          EndHead := g 5
          EndSector := g 6 &&& 63
          EndCylinder := ((g 6 &&& 192) <<< 2) ||| g 7
          Start := g 8 + g 9 * 256 + g 10 * 65536 + g 11 * 16777216
          Size := g 12 + g 13 * 256 + g 14 * 65536 + g 15 * 16777216 }
    else .error "invalid partition"

/-- The logical sector size the MBR package works with, in bytes. -/
def logicalSectorSize : Nat := 512

/-- The failure modes of `Partition.WriteContents` exercised here:
`tooSmall` is the "requested to write at least %d bytes to partition but
maximum size is %d" error raised when the producer holds more than the
partition's capacity; `sizeMismatch` is the "write %d bytes to partition
instead of expected %d" error raised when the producer ends early. -/
inductive WriteError where
  | tooSmall (requested maximum : Nat)
  | sizeMismatch (written expected : Nat)
  deriving DecidableEq

/-- Modelled from the spec: the copy loop of `Partition.WriteContents`
(the file `partition/mbr/partition.go` is not in the sample; behavior per
spec 4.1 and `TestWriteContents`).  Each iteration reads one chunk of up to
one logical sector (512 bytes) from the producer; if accepting the chunk
would exceed the partition capacity `size` the loop stops with the
too-small error, reporting the bytes written so far; when the producer is
exhausted, a total different from the partition size is an error.  Backing
store writes themselves are assumed to succeed (their failure modes are not
at issue in any claim). -/
def writeContentsLoop (size total remaining : Nat) : Nat × Option WriteError :=
  if remaining = 0 then
    if total = size then (total, none) else (total, some (.sizeMismatch total size))
  else if size < total + min 512 remaining then
    (total, some (.tooSmall (total + min 512 remaining) size))
  else
    writeContentsLoop size (total + min 512 remaining) (remaining - min 512 remaining)
termination_by remaining
decreasing_by omega

/-- Modelled from the spec: `Partition.WriteContents` streaming a producer
holding `contentLen` bytes into the partition; returns the byte count
written and the error, if any.  Capacity is `Size` sectors of 512 bytes. -/
def Partition.WriteContents (p : Partition) (contentLen : Nat) : Nat × Option WriteError :=
  writeContentsLoop (p.Size * logicalSectorSize) 0 contentLen

end mbr


namespace disk

/-- Outcome of `Disk.ReadPartitionContents` / `Disk.WritePartitionContents`
up to the hand-off to the selected partition: an early error return, a Go
runtime panic from an out-of-bounds slice index, or delegation to
`partitions[slotIndex]` (the embedding's cut point: actual content streaming
is the partition's job). -/
inductive PartResult where
  | error (msg : String)
  | panicked
  | delegated (slotIndex : Nat)
  deriving DecidableEq

/-- The fields of `disk.Disk` these operations consult: whether
`Backend.Writable()` succeeds, and the partition table (`nil` or the list of
partitions its `GetPartitions()` returns). -/
structure Disk (P : Type) where
  backendWritable : Bool
  Table : Option (List P)

/-- The Go slice access `partitions[i]`: a runtime panic when `i` is
negative or at least the length, otherwise the element is used. -/
def sliceIndex (len : Nat) (i : Int) : PartResult :=
  if i < 0 ∨ (len : Int) ≤ i then .panicked else .delegated i.toNat

/-- `Disk.WritePartitionContents`: check the backend is writable, the table
is present, `part < 0` and `part > len(partitions)`, then index the
partition slice at `part - 1` and delegate to its `WriteContents`. -/
def WritePartitionContents {P : Type} (d : Disk P) (part : Int) : PartResult :=
  if ¬d.backendWritable then .error "backend not writable"
  else
    match d.Table with
    | none => .error "cannot write contents of a partition on a disk without a partition table"
    | some partitions =>
      if part < 0 then
        .error "cannot write contents of a partition without specifying a partition"
      else if (partitions.length : Int) < part then
        .error ("cannot write contents of partition " ++ toString part ++
          " which is greater than max partition " ++ toString partitions.length)
      else sliceIndex partitions.length (part - 1)

/-- `Disk.ReadPartitionContents`: check the table is present, `part < 0` and
`part > len(partitions)`, then index the partition slice at `part - 1` and
delegate to its `ReadContents`. -/
def ReadPartitionContents {P : Type} (d : Disk P) (part : Int) : PartResult :=
  match d.Table with
  | none => .error "cannot read contents of a partition on a disk without a partition table"
  | some partitions =>
    if part < 0 then
      .error "cannot read contents of a partition without specifying a partition"
    else if (partitions.length : Int) < part then
      .error ("cannot read contents of partition " ++ toString part ++
        " which is greater than max partition " ++ toString partitions.length)
    else sliceIndex partitions.length (part - 1)

end disk

namespace squashfs

/-- Allowed blocksize bounds and the default, in bytes (`4*KB`, `1*MB`,
`128*KB` in the source). -/
def minBlocksize : Int := 4 * 1024

def maxBlocksize : Int := 1024 * 1024

def defaultBlockSize : Int := 128 * 1024

/-- The three rejection reasons of `validateBlocksize`, carrying the
offending value (the source formats them into error strings: "too small",
"too large", "is not a power of 2"). -/
inductive BlocksizeError where
  | tooSmall (value : Int)
  | tooLarge (value : Int)
  | notPowerOfTwo (value : Int)
  deriving DecidableEq

/-- Power-of-two test by repeated halving; the fuel argument (initialized to
the number itself) only makes the recursion structural and is never
exhausted for fuel at least the number. -/
def isPow2Aux : Nat → Nat → Bool
  | _, 0 => false
  | n, fuel + 1 =>
    if n = 1 then true
    else if n % 2 = 1 then false
    else isPow2Aux (n / 2) fuel

/-- Whether `n` is a power of two.  The source tests
`math.Trunc(math.Log2(float64(blocksize))) == math.Log2(float64(blocksize))`;
on the range the earlier guards admit (4096..1048576) the float computation
is exact far beyond rounding error, so that test holds exactly when the
value is a power of two, which is what is computed here. -/
def isPow2 (n : Nat) : Bool := isPow2Aux n n

/-- `validateBlocksize`: too small below 4096, too large above 1048576,
otherwise rejected when not a power of two. -/
def validateBlocksize (blocksize : Int) : Option BlocksizeError :=
  if blocksize < minBlocksize then some (.tooSmall blocksize)
  else if maxBlocksize < blocksize then some (.tooLarge blocksize)
  else if !isPow2 blocksize.toNat then some (.notPowerOfTwo blocksize)
  else none

/-- The blocksize handling shared by `Create` and `Read`: a zero argument is
replaced by the 128 KiB default, then validated.  On success the returned
value is the blocksize the function proceeds with. -/
def blocksizeArg (blocksize : Int) : Except BlocksizeError Int :=
  let bs := if blocksize = 0 then defaultBlockSize else blocksize
  match validateBlocksize bs with
  | some e => .error e
  | none => .ok bs

/-- `Create`, cut at the embedding boundary: substitute the default for a
zero blocksize and validate it; past this point the source only creates the
scratch workspace directory and returns the new `FileSystem`. -/
def Create (blocksize : Int) : Except BlocksizeError Int :=
  blocksizeArg blocksize

/-- `Read`, cut at the embedding boundary: substitute the default for a zero
blocksize and validate it; past this point the source reads the superblock
and tables from the backend (outcomes that depend only on the stored image,
not on the blocksize argument). -/
def Read (blocksize : Int) : Except BlocksizeError Int :=
  blocksizeArg blocksize

/-- The superblock fields the embedded operations consult. -/
structure superblock where
  blocksize : Nat
  deriving DecidableEq

/-- One fragment-table entry: disk offset, stored size, compressed flag. -/
structure fragmentEntry where
  start : Nat
  size : Nat
  compressed : Bool
  deriving DecidableEq

/-- Observable side effects of the embedded read paths: a positioned backend
read, or a decompression. -/
inductive Effect where
  | backendRead (location size : Nat)
  | decompress
  deriving DecidableEq

/-- The backend storage: a positioned read returning the bytes obtained (a
short list models a partial read) or a terminal error. -/
structure Backend where
  ReadAt : Nat → Nat → Except String (List Nat)

/-- A decompressor handle. -/
structure Compressor where
  decompress : List Nat → Except String (List Nat)

/-- Modelled from the spec: the decompressed-block LRU cache (`lru.go` is
not in the sample).  Entries map a disk position to the decompressed data
plus its on-disk size, most recently used first; capacity 0 disables the
cache (every access is a miss and inserts nothing). -/
structure lru where
  maxBlocks : Nat
  entries : List (Nat × (List Nat × Nat))
  deriving DecidableEq

/-- Modelled from the spec: `lru.get` looks `pos` up; a hit moves the entry
to the most-recent position and performs no I/O; a miss runs the loader
exactly once, inserting its result (evicting the least-recent entry at
capacity) unless it failed or the cache is disabled. -/
def lru.get (c : lru) (pos : Nat)
    (loader : Unit → Except String (List Nat × Nat) × List Effect) :
    Except String (List Nat × Nat) × lru × List Effect :=
  if c.maxBlocks = 0 then
    let r := loader ()
    (r.1, c, r.2)
  else
    match c.entries.find? (fun e => e.1 == pos) with
    | some e =>
      (.ok e.2, { c with entries := (pos, e.2) :: c.entries.filter (fun x => x.1 != pos) }, [])
    | none =>
      let r := loader ()
      match r.1 with
      | .error err => (.error err, c, r.2)
      | .ok v =>
        let es := (pos, v) :: c.entries
        (.ok v, { c with entries := if c.maxBlocks < es.length then es.dropLast else es }, r.2)

/-- The `FileSystem` fields the embedded operations consult. -/
structure FileSystem where
  workspace : String
  superblock : superblock
  backend : Backend
  compressor : Option Compressor
  fragments : List fragmentEntry
  cache : lru

/-- `FileSystem.readBlock`: a size of 0 denotes a sparse block and yields
`blocksize` zero bytes with no backend read and no decompression; otherwise
the stored bytes are read at `location` (an error or a short read fails) and
decompressed when the compressed flag is set.  Alongside the result, the
list of performed effects is returned.  (In Go a nil compressor here would
be a nil-interface panic; `Read` always installs one; it is recorded as an
error value, and no claim depends on that branch.) -/
def readBlock (fs : FileSystem) (location : Nat) (compressed : Bool) (size : Nat) :
    Except String (List Nat) × List Effect :=
  if size = 0 then (.ok (List.replicate fs.superblock.blocksize 0), [])
  else
    match fs.backend.ReadAt location size with
    | .error e =>
      (.error ("error reading block " ++ toString location ++ ": " ++ e),
        [.backendRead location size])
    | .ok b =>
      if b.length ≠ size then
        (.error ("read " ++ toString b.length ++ " bytes instead of expected " ++ toString size),
          [.backendRead location size])
      else if compressed then
        match fs.compressor with
        | none => (.error "nil compressor", [.backendRead location size])
        | some c =>
          match c.decompress b with
          | .error e =>
            (.error ("decompress error: " ++ e), [.backendRead location size, .decompress])
          | .ok d => (.ok d, [.backendRead location size, .decompress])
      else (.ok b, [.backendRead location size])

/-- `FileSystem.readFragment`: an index past the loaded fragment table fails
at once (no backend read, no cache access); otherwise the fragment block is
obtained through the cache — the loader reads the entry's stored bytes at
its disk offset and decompresses them if flagged (failing when no
compressor is installed) — and the `fragmentSize` bytes at `offset` within
it are returned.  The updated cache and the performed effects are returned
alongside.  (The final slice is a Go bounds-checked slice expression; going
past the data is a panic, recorded as an error value.) -/
def readFragment (fs : FileSystem) (index offset : Nat) (fragmentSize : Nat) :
    Except String (List Nat) × lru × List Effect :=
  if (fs.fragments.length : Int) - 1 < (index : Int) then
    (.error ("cannot find fragment block with index " ++ toString index), fs.cache, [])
  else
    let fragmentInfo := fs.fragments.getD index ⟨0, 0, false⟩
    let pos := fragmentInfo.start
    let r := fs.cache.get pos (fun _ =>
      match fs.backend.ReadAt pos fragmentInfo.size with
      | .error e =>
        (.error ("unable to read fragment block " ++ toString index ++ ": " ++ e),
          [.backendRead pos fragmentInfo.size])
      | .ok b =>
        if b.length ≠ fragmentInfo.size then
          (.error ("read " ++ toString b.length ++ " instead of expected " ++
              toString fragmentInfo.size ++ " bytes for fragment block " ++ toString index),
            [.backendRead pos fragmentInfo.size])
        else if fragmentInfo.compressed then
          match fs.compressor with
          | none =>
            (.error "fragment compressed but do not have valid compressor",
              [.backendRead pos fragmentInfo.size])
          | some c =>
            match c.decompress b with
            | .error e =>
              (.error ("decompress error: " ++ e),
                [.backendRead pos fragmentInfo.size, .decompress])
            | .ok d => (.ok (d, 0), [.backendRead pos fragmentInfo.size, .decompress])
        else (.ok (b, 0), [.backendRead pos fragmentInfo.size]))
    match r.1 with
    | .error e => (.error e, r.2.1, r.2.2)
    | .ok (data, _) =>
      if offset + fragmentSize ≤ data.length then
        (.ok ((data.drop offset).take fragmentSize), r.2.1, r.2.2)
      else (.error "slice bounds out of range", r.2.1, r.2.2)

/-- `FileSystem.Close`: when a scratch workspace exists, remove it and
return the removal result; otherwise return nil.  `removeAll` stands for
`os.RemoveAll`. -/
def Close (fs : FileSystem) (removeAll : String → Except String Unit) : Except String Unit :=
  if fs.workspace ≠ "" then removeAll fs.workspace else .ok ()

/-- The `os.OpenFile` flag bits `OpenFile` inspects. -/
structure OpenFlag where
  wronly : Bool
  rdwr : Bool
  append : Bool
  create : Bool
  trunc : Bool
  excl : Bool
  deriving DecidableEq

/-- Outcome of `FileSystem.OpenFile` up to the point where the path starts
being resolved: the early "cannot open directory %s as file" error when
`path.Dir` and `path.Base` coincide, the read-only error for write intent
without a workspace, or the embedding's cut points — resolving `dir` in the
squashfs image (the first backend I/O), or opening inside the workspace. -/
inductive OpenResult where
  | errCannotOpenDir (p : String)
  | errReadOnly
  | resolveDir (dir filename : String)
  | workspaceOpen (p : String)
  deriving DecidableEq

/-- `FileSystem.OpenFile`: split the path with `path.Dir` / `path.Base`,
reject `dir == filename` (the "it is just /" check), then with no workspace
reject any write intent with the read-only error before reading directory
entries; reads proceed to resolve `dir`. -/
def OpenFile (fs : FileSystem) (p : String) (flag : OpenFlag) : OpenResult :=
  let dir := gopath.dir p
  let filename := gopath.base p
  if dir = filename then .errCannotOpenDir p
  else
    let writeMode := flag.wronly || flag.rdwr || flag.append || flag.create ||
      flag.trunc || flag.excl
    if fs.workspace = "" then
      if writeMode then .errReadOnly
      else .resolveDir dir filename
    else .workspaceOpen p

end squashfs

namespace ext4

/-- A Go `Ordered` type as `cmp.go` sees one: the `<` and `==` operators.
The two laws are what Go guarantees for every `Ordered` instantiation
(including the floating-point ones): a value on either side of a true `<`
is equal to itself (only NaN is not), and `<` is asymmetric. -/
structure GoOrdered (T : Type) where
  lt : T → T → Bool
  beq : T → T → Bool
  lt_not_nan : ∀ x y, lt x y = true → beq x x = true ∧ beq y y = true
  lt_asymm : ∀ x y, lt x y = true → lt y x = false

/-- `isNaN`: `x != x`, true only for floating-point NaN values. -/
def isNaN {T : Type} (O : GoOrdered T) (x : T) : Bool := !(O.beq x x)

/-- `Less`: x is less than y, with a NaN less than any non-NaN. -/
def Less {T : Type} (O : GoOrdered T) (x y : T) : Bool :=
  (isNaN O x && !(isNaN O y)) || O.lt x y

/-- `Compare`: -1, 0 or +1, with NaN below every non-NaN and equal to NaN. -/
def Compare {T : Type} (O : GoOrdered T) (x y : T) : Int :=
  let xNaN := isNaN O x
  let yNaN := isNaN O y
  if xNaN then
    if yNaN then 0 else -1
  else if yNaN then 1
  else if O.lt x y then -1
  else if O.lt y x then 1
  else 0

end ext4

/-- A sample MBR partition entry (the `TestToBytes` fixture): its CHS bytes
(sector 2) deliberately disagree with what the fixed (255, 63) geometry
would derive from its LBA start 2048 (head 32, sector 33), so it also
witnesses that the codec does not recompute CHS from the LBA fields. -/
def mbrSample : mbr.Partition :=
  { Bootable := false, StartHead := 0, StartSector := 2, StartCylinder := 0,
    PartType := 131, EndHead := 0, EndSector := 2, EndCylinder := 0,
    Start := 2048, Size := 20480 }

/-- A partition of one sector (512 bytes capacity), as in the
"too large for partition" case of `TestWriteContents`. -/
def mbrTiny : mbr.Partition :=
  { Bootable := false, StartHead := 0, StartSector := 2, StartCylinder := 0,
    PartType := 131, EndHead := 0, EndSector := 2, EndCylinder := 0,
    Start := 2048, Size := 1 }

/-- A disk with a writable backend and a one-partition table. -/
def diskSample : disk.Disk mbr.Partition :=
  { backendWritable := true, Table := some [mbrSample] }

/-- A squashfs filesystem as `Read` returns one: empty workspace (read-only
path), no fragments loaded, an idle cache.  The backend is never consulted
by the operations proved about it. -/
def sqfsReadOnly : squashfs.FileSystem :=
  { workspace := ""
    superblock := { blocksize := 131072 }
    backend := { ReadAt := fun _ _ => .error "unused" }
    compressor := none
    fragments := []
    cache := { maxBlocks := 1024, entries := [] } }

/-- The same filesystem with a scratch workspace, as `Create` returns one. -/
def sqfsWorkspace : squashfs.FileSystem :=
  { sqfsReadOnly with workspace := "/tmp/diskfs_squashfs" }

/-- A write-only open flag (`os.O_WRONLY`). -/
def flagWronly : squashfs.OpenFlag :=
  { wronly := true, rdwr := false, append := false, create := false,
    trunc := false, excl := false }

/-- Go `<` and `==` on a float-like carrier: `none` plays NaN (not equal to
itself, never below anything), `some` values are totally ordered. -/
def optIntLt : Option Int → Option Int → Bool
  | some a, some b => a < b
  | _, _ => false

def optIntBeq : Option Int → Option Int → Bool
  | some a, some b => a == b
  | _, _ => false

/-- The float-like `GoOrdered` instance used to witness the comparator
theorems on a carrier that actually contains a NaN. -/
def floatOrdered : ext4.GoOrdered (Option Int) where
  lt := optIntLt
  beq := optIntBeq
  lt_not_nan := by
    intro x y h
    cases x <;> cases y <;> simp [optIntLt, optIntBeq] at h ⊢
  lt_asymm := by
    intro x y h
    cases x <;> cases y <;> simp [optIntLt] at h ⊢
    omega

/-- `x &&& 63` keeps the low six bits. -/
theorem and63_eq_mod (x : Nat) : x &&& 63 = x % 64 := by
  have h : (63 : Nat) = 2 ^ 6 - 1 := by norm_num
  rw [h, Nat.and_pow_two_sub_one_eq_mod]

/-- `x &&& 255` keeps the low eight bits. -/
theorem and255_eq_mod (x : Nat) : x &&& 255 = x % 256 := by
  have h : (255 : Nat) = 2 ^ 8 - 1 := by norm_num
  rw [h, Nat.and_pow_two_sub_one_eq_mod]

/-- For a byte, `x &&& 192` keeps the top two bits. -/
theorem and192_eq_div : ∀ x < 256, x &&& 192 = x / 64 * 64 := by
  decide

/-- Disjoint or is addition: low six bits against a two-bit field shifted up. -/
theorem lor_low_high : ∀ a < 64, ∀ b < 4, a ||| b * 64 = a + b * 64 := by
  decide

/-- Disjoint or is addition: a two-bit field shifted past a whole byte. -/
theorem lor_high_low : ∀ b < 4, ∀ a < 256, b * 256 ||| a = b * 256 + a := by
  decide

/-- The packed CHS byte pair recovers the sector and cylinder exactly. -/
theorem chs_pack_roundtrip (s c : Nat) (hs : s < 64) (hc : c < 1024) :
    mbr.packCHSByte s c &&& 63 = s ∧
    ((mbr.packCHSByte s c &&& 192) <<< 2) ||| (c &&& 255) = c := by
  have hdiv : c >>> 2 = c / 4 := by
    rw [Nat.shiftRight_eq_div_pow]
  have hc4 : c / 4 < 256 := by omega
  have hb : c / 4 / 64 = c / 256 := by omega
  have hpack : mbr.packCHSByte s c = s + c / 256 * 64 := by
    unfold mbr.packCHSByte
    rw [hdiv, and63_eq_mod, and192_eq_div _ hc4, hb,
      lor_low_high _ (by omega) _ (by omega)]
    omega
  constructor
  · rw [hpack, and63_eq_mod]
    omega
  · rw [hpack, and192_eq_div _ (by omega), and255_eq_mod, Nat.shiftLeft_eq]
    have h1 : (s + c / 256 * 64) / 64 * 64 * 2 ^ 2 = c / 256 * 256 := by omega
    rw [h1, lor_high_low _ (by omega) _ (by omega)]
    omega


/-- C1: decoding the 16-byte encoding of an MBR partition entry returns the
entry unchanged; in particular the packed CHS byte triples round-trip exactly
(the caller-supplied CHS values are preserved, not recomputed from the LBA
fields), for every entry whose fields are within their on-disk widths. -/
theorem mbr_decode_encode_roundtrip (p : mbr.Partition)
    (hss : p.StartSector < 64) (hsc : p.StartCylinder < 1024)
    (hes : p.EndSector < 64) (hec : p.EndCylinder < 1024)
    (hst : p.Start < 4294967296) (hsz : p.Size < 4294967296) :
    mbr.partitionFromBytes p.toBytes = .ok p := by
  obtain ⟨boot, sh, ss, sc, ty, eh, es, ec, st, sz⟩ := p
  simp only at hss hsc hes hec hst hsz
  obtain ⟨hs1, hs2⟩ := chs_pack_roundtrip ss sc hss hsc
  obtain ⟨he1, he2⟩ := chs_pack_roundtrip es ec hes hec
  cases boot <;>
    simp [mbr.partitionFromBytes, mbr.Partition.toBytes, List.getD, hs1, hs2, he1, he2] <;>
    omega

/-- Witness for C1 at the `TestToBytes` fixture entry, whose CHS bytes
disagree with the (255, 63) geometry of its LBA fields. -/
theorem mbr_decode_encode_roundtrip_witness :
    mbrSample.StartSector < 64 ∧ mbrSample.StartCylinder < 1024 ∧
    mbrSample.EndSector < 64 ∧ mbrSample.EndCylinder < 1024 ∧
    mbrSample.Start < 4294967296 ∧ mbrSample.Size < 4294967296 ∧
    mbr.partitionFromBytes mbrSample.toBytes = .ok mbrSample :=
  ⟨by decide, by decide, by decide, by decide, by decide, by decide,
   mbr_decode_encode_roundtrip mbrSample (by decide) (by decide) (by decide)
     (by decide) (by decide) (by decide)⟩

/-- When the producer still holds more than `size - total` bytes and the
outstanding capacity is a whole number of sectors, the write loop fills the
capacity exactly and then stops with the too-small error. -/
theorem writeContentsLoop_overflow :
    ∀ n total remaining, 512 * n < remaining →
      mbr.writeContentsLoop (total + 512 * n) total remaining =
        (total + 512 * n,
         some (.tooSmall (total + 512 * n + min 512 (remaining - 512 * n)) (total + 512 * n))) := by
  intro n
  induction n with
  | zero =>
    intro total remaining h
    rw [mbr.writeContentsLoop]
    simp only [Nat.mul_zero, Nat.add_zero, Nat.sub_zero]
    rw [if_neg (by omega), if_pos (by omega)]
  | succ n ih =>
    intro total remaining h
    rw [mbr.writeContentsLoop]
    rw [if_neg (by omega), if_neg (by omega)]
    have hmin : min 512 remaining = 512 := by omega
    rw [hmin]
    have := ih (total + 512) (remaining - 512) (by omega)
    have harr : total + 512 + 512 * n = total + 512 * (n + 1) := by ring
    rw [harr] at this
    rw [this]
    have : remaining - 512 - 512 * n = remaining - 512 * (n + 1) := by omega
    rw [this]

/-- C4: a producer holding more bytes than the partition's capacity
(`Size` sectors of 512 bytes) makes `WriteContents` write whole sectors up
to the capacity and then fail with the too-small (PartitionTooSmall) error,
reporting the bytes written so far. -/
theorem mbr_writecontents_too_small (p : mbr.Partition) (contentLen : Nat)
    (h : p.Size * 512 < contentLen) :
    (p.WriteContents contentLen).1 = p.Size * 512 ∧
    ∃ req, (p.WriteContents contentLen).2 = some (.tooSmall req (p.Size * 512)) := by
  unfold mbr.Partition.WriteContents mbr.logicalSectorSize
  have base := writeContentsLoop_overflow p.Size 0 contentLen (by omega)
  simp only [Nat.zero_add] at base
  have hcomm : p.Size * 512 = 512 * p.Size := by ring
  rw [hcomm, base]
  exact ⟨rfl, _, rfl⟩

/-- Witness for C4: writing 2 sectors of bytes into a 1-sector partition
writes 512 bytes and then fails. -/
theorem mbr_writecontents_too_small_witness :
    mbrTiny.Size * 512 < 1024 ∧
    ((mbrTiny.WriteContents 1024).1 = mbrTiny.Size * 512 ∧
     ∃ req, (mbrTiny.WriteContents 1024).2 = some (.tooSmall req (mbrTiny.Size * 512))) :=
  ⟨by decide, mbr_writecontents_too_small mbrTiny 1024 (by decide)⟩

/-- C5: `partitionFromBytes` fails exactly on invalid input — any length
other than 16 gives the exact-length message, a bad bootable byte on a
16-byte slice gives the invalid-partition error, and a 16-byte slice with a
valid bootable byte decodes without error. -/
theorem mbr_frombytes_invalid_iff (b : List Nat) :
    (b.length ≠ 16 → mbr.partitionFromBytes b = .error (mbr.lengthError b.length)) ∧
    (b.length = 16 → b.getD 0 0 ≠ 0 → b.getD 0 0 ≠ 128 →
      mbr.partitionFromBytes b = .error "invalid partition") ∧
    (b.length = 16 → (b.getD 0 0 = 0 ∨ b.getD 0 0 = 128) →
      ∃ p, mbr.partitionFromBytes b = .ok p) := by
  refine ⟨fun h => ?_, fun h h0 h128 => ?_, fun h hv => ?_⟩
  · rw [mbr.partitionFromBytes, if_pos h]
  · rw [mbr.partitionFromBytes, if_neg (by omega)]
    simp only
    rw [if_neg (by tauto)]
  · rw [mbr.partitionFromBytes, if_neg (by omega)]
    simp only
    rw [if_pos (by tauto)]
    exact ⟨_, rfl⟩

/-- Witness for C5 at three concrete slices: 15 bytes, a bad bootable byte
(0x67), and 16 zero bytes. -/
theorem mbr_frombytes_invalid_iff_witness :
    mbr.partitionFromBytes (List.replicate 15 0) =
      .error (mbr.lengthError (List.replicate 15 0).length) ∧
    mbr.partitionFromBytes (103 :: List.replicate 15 0) = .error "invalid partition" ∧
    ∃ p, mbr.partitionFromBytes (List.replicate 16 0) = .ok p :=
  ⟨(mbr_frombytes_invalid_iff (List.replicate 15 0)).1 (by decide),
   (mbr_frombytes_invalid_iff (103 :: List.replicate 15 0)).2.1 (by decide) (by decide) (by decide),
   (mbr_frombytes_invalid_iff (List.replicate 16 0)).2.2 (by decide) (by decide)⟩

/-- C2 (the code bug): on a disk with a writable backend and a non-nil
one-partition table, partition index 0 passes the `part < 0` and
`part > len(partitions)` guards of both `ReadPartitionContents` and
`WritePartitionContents` and reaches the slice access `partitions[-1]`,
a runtime panic — not the error return the claim describes. -/
theorem disk_part_zero_panics :
    disk.ReadPartitionContents diskSample 0 = .panicked ∧
    disk.WritePartitionContents diskSample 0 = .panicked := by
  constructor <;> rfl

/-- Counterexample to C3 as stated: for the path "/" (where `path.Dir` and
`path.Base` coincide), `OpenFile` with write-only intent on the read-only
filesystem returns the cannot-open-directory error, not the ReadOnly
error. -/
theorem squashfs_openfile_root_not_readonly :
    squashfs.OpenFile sqfsReadOnly "/" flagWronly = .errCannotOpenDir "/" ∧
    squashfs.OpenFile sqfsReadOnly "/" flagWronly ≠ .errReadOnly := by
  constructor
  · rfl
  · decide

/-- C3 as amended: for every path that is not rejected up front by the
`dir == filename` check, any write intent against a workspace-less
(read-only) squashfs filesystem returns the ReadOnly error before the path
is resolved (no directory read, no backend I/O). -/
theorem squashfs_openfile_write_readonly (fs : squashfs.FileSystem)
    (p : String) (flag : squashfs.OpenFlag)
    (hws : fs.workspace = "")
    (hw : (flag.wronly || flag.rdwr || flag.append || flag.create ||
      flag.trunc || flag.excl) = true)
    (hd : gopath.dir p ≠ gopath.base p) :
    squashfs.OpenFile fs p flag = .errReadOnly := by
  unfold squashfs.OpenFile
  simp only [hws, hw, if_neg hd, if_pos rfl, if_pos]

/-- Witness for the amended C3 at the ordinary file path "a/b" with
write-only intent. -/
theorem squashfs_openfile_write_readonly_witness :
    sqfsReadOnly.workspace = "" ∧
    (flagWronly.wronly || flagWronly.rdwr || flagWronly.append || flagWronly.create ||
      flagWronly.trunc || flagWronly.excl) = true ∧
    gopath.dir "a/b" ≠ gopath.base "a/b" ∧
    squashfs.OpenFile sqfsReadOnly "a/b" flagWronly = .errReadOnly :=
  ⟨rfl, by decide, by decide,
   squashfs_openfile_write_readonly sqfsReadOnly "a/b" flagWronly rfl (by decide) (by decide)⟩

/-- A true `isPow2Aux` certifies a power of two (the fuel only bounds the
halving depth). -/
theorem isPow2Aux_pow2 :
    ∀ fuel n, squashfs.isPow2Aux n fuel = true → ∃ k : Nat, n = 2 ^ k := by
  intro fuel
  induction fuel with
  | zero => intro n h; simp [squashfs.isPow2Aux] at h
  | succ fuel ih =>
    intro n h
    rw [squashfs.isPow2Aux] at h
    by_cases h1 : n = 1
    · exact ⟨0, by omega⟩
    · rw [if_neg h1] at h
      by_cases hodd : n % 2 = 1
      · rw [if_pos hodd] at h
        exact absurd h (by simp)
      · rw [if_neg hodd] at h
        obtain ⟨k, hk⟩ := ih (n / 2) h
        exact ⟨k + 1, by omega⟩

/-- Counterexample to C6's parenthetical: blocksize 3000 is rejected by
`Read` (and `Create`) as too small — the range check fires before the
power-of-two check — not as "not a power of two". -/
theorem squashfs_blocksize_3000_too_small :
    squashfs.Read 3000 = .error (.tooSmall 3000) ∧
    squashfs.Read 3000 ≠ .error (.notPowerOfTwo 3000) ∧
    squashfs.Create 3000 = .error (.tooSmall 3000) := by
  refine ⟨rfl, ?_, rfl⟩
  have h1 : squashfs.Read 3000 = .error (.tooSmall 3000) := rfl
  rw [h1]
  intro hcon
  injection hcon with h2
  exact absurd h2 (by decide)

/-- C6 as amended: `Create` and `Read` fail for every nonzero blocksize
argument that is outside 4096..1048576 or not a power of two (3000, in
particular, as too small), and a blocksize argument of 0 makes both proceed
with the 128 KiB default. -/
theorem squashfs_blocksize_validation :
    (∀ b : Int, b ≠ 0 → (b < 4096 ∨ 1048576 < b ∨ ¬∃ k : Nat, b = 2 ^ k) →
      (∃ e, squashfs.Create b = .error e) ∧ ∃ e, squashfs.Read b = .error e) ∧
    squashfs.Create 0 = .ok 131072 ∧ squashfs.Read 0 = .ok 131072 := by
  refine ⟨fun b hb hbad => ?_, rfl, rfl⟩
  have herr : ∃ e, squashfs.validateBlocksize b = some e := by
    unfold squashfs.validateBlocksize
    by_cases hsmall : b < squashfs.minBlocksize
    · rw [if_pos hsmall]; exact ⟨_, rfl⟩
    · rw [if_neg hsmall]
      by_cases hlarge : squashfs.maxBlocksize < b
      · rw [if_pos hlarge]; exact ⟨_, rfl⟩
      · rw [if_neg hlarge]
        have hrange : 4096 ≤ b ∧ b ≤ 1048576 := by
          unfold squashfs.minBlocksize at hsmall
          unfold squashfs.maxBlocksize at hlarge
          omega
        have hnp : ¬∃ k : Nat, b = 2 ^ k := by
          rcases hbad with h | h | h
          · omega
          · omega
          · exact h
        have hfalse : squashfs.isPow2 b.toNat = false := by
          by_contra hcon
          rw [Bool.not_eq_false] at hcon
          obtain ⟨k, hk⟩ := isPow2Aux_pow2 b.toNat b.toNat hcon
          refine hnp ⟨k, ?_⟩
          have hb0 : (0 : Int) ≤ b := by omega
          have : b.toNat = (2 : Nat) ^ k := hk
          have := congrArg (fun n : Nat => (n : Int)) this
          simpa [Int.toNat_of_nonneg hb0] using this
        rw [hfalse]
        exact ⟨_, rfl⟩
  obtain ⟨e, he⟩ := herr
  have harg : squashfs.blocksizeArg b = .error e := by
    unfold squashfs.blocksizeArg
    rw [if_neg hb]
    simp only [he]
  exact ⟨⟨e, harg⟩, ⟨e, harg⟩⟩

/-- Witness for the amended C6 at blocksize 3000 (nonzero, below the
minimum). -/
theorem squashfs_blocksize_validation_witness :
    (3000 : Int) ≠ 0 ∧
    ((∃ e, squashfs.Create 3000 = .error e) ∧ ∃ e, squashfs.Read 3000 = .error e) :=
  ⟨by decide, squashfs_blocksize_validation.1 3000 (by decide) (Or.inl (by decide))⟩

/-- C7: a data-block entry of size 0 is a sparse block — `readBlock`
returns exactly `superblock.blocksize` zero bytes with no backend read and
no decompression, for every filesystem, location and compressed flag. -/
theorem squashfs_readblock_sparse (fs : squashfs.FileSystem)
    (location : Nat) (compressed : Bool) :
    squashfs.readBlock fs location compressed 0 =
      (.ok (List.replicate fs.superblock.blocksize 0), []) := by
  rfl

/-- C8: a fragment index at or past the number of loaded fragment-table
entries makes `readFragment` fail immediately, with no backend read, no
decompression, and the cache unchanged. -/
theorem squashfs_readfragment_oob (fs : squashfs.FileSystem)
    (index offset fragmentSize : Nat)
    (h : fs.fragments.length ≤ index) :
    squashfs.readFragment fs index offset fragmentSize =
      (.error ("cannot find fragment block with index " ++ toString index),
       fs.cache, []) := by
  unfold squashfs.readFragment
  rw [if_pos (by omega)]

/-- Witness for C8: index 0 against an empty fragment table. -/
theorem squashfs_readfragment_oob_witness :
    sqfsReadOnly.fragments.length ≤ 0 ∧
    squashfs.readFragment sqfsReadOnly 0 0 0 =
      (.error ("cannot find fragment block with index " ++ toString 0),
       sqfsReadOnly.cache, []) :=
  ⟨by decide, squashfs_readfragment_oob sqfsReadOnly 0 0 0 (by decide)⟩

/-- Counterexample to C9 as stated: with a non-empty workspace, a failing
removal makes `Close` return the removal error — the failure is propagated,
not swallowed. -/
theorem squashfs_close_propagates_remove_error :
    squashfs.Close sqfsWorkspace (fun _ => .error "remove failed") = .error "remove failed" ∧
    squashfs.Close sqfsWorkspace (fun _ => .error "remove failed") ≠ .ok () := by
  refine ⟨rfl, ?_⟩
  intro hcon
  have h1 : squashfs.Close sqfsWorkspace (fun _ => .error "remove failed") =
      .error "remove failed" := rfl
  rw [h1] at hcon
  exact absurd hcon (by simp)

/-- C9 as amended: `Close` returns nil when there is no workspace, and with
a workspace it returns exactly the result of removing it — so a removal
failure is returned as the close error rather than merely logged. -/
theorem squashfs_close_behavior (fs : squashfs.FileSystem)
    (removeAll : String → Except String Unit) :
    (fs.workspace = "" → squashfs.Close fs removeAll = .ok ()) ∧
    (fs.workspace ≠ "" → squashfs.Close fs removeAll = removeAll fs.workspace) := by
  constructor
  · intro h
    unfold squashfs.Close
    rw [if_neg (by simp [h])]
  · intro h
    unfold squashfs.Close
    rw [if_pos h]

/-- Witness for the amended C9: a workspace-less filesystem closes with nil
even when removal would fail; a workspace-holding one returns the removal
result. -/
theorem squashfs_close_behavior_witness :
    squashfs.Close sqfsReadOnly (fun _ => .error "unused") = .ok () ∧
    squashfs.Close sqfsWorkspace (fun _ => .ok ()) = .ok () :=
  ⟨(squashfs_close_behavior sqfsReadOnly (fun _ => .error "unused")).1 rfl,
   (squashfs_close_behavior sqfsWorkspace (fun _ => .ok ())).2 (by decide)⟩

/-- C10: for any Go `Ordered` type, `Compare` is -1 exactly when `Less`
holds left-to-right, +1 exactly when it holds right-to-left, 0 exactly when
neither holds (so two NaN values compare equal), and `Compare` is
antisymmetric: `Compare(x, y) = -Compare(y, x)`. -/
theorem ext4_compare_less_consistency (T : Type) (O : ext4.GoOrdered T) (x y : T) :
    (ext4.Compare O x y = -1 ↔ ext4.Less O x y = true) ∧
    (ext4.Compare O x y = 1 ↔ ext4.Less O y x = true) ∧
    (ext4.Compare O x y = 0 ↔ (ext4.Less O x y = false ∧ ext4.Less O y x = false)) ∧
    ext4.Compare O x y = -ext4.Compare O y x := by
  have hnan : ∀ a b, O.lt a b = true →
      ext4.isNaN O a = false ∧ ext4.isNaN O b = false := by
    intro a b h
    obtain ⟨h1, h2⟩ := O.lt_not_nan a b h
    simp [ext4.isNaN, h1, h2]
  have h1 : O.lt x y = true → ext4.isNaN O x = false := fun h => (hnan x y h).1
  have h2 : O.lt x y = true → ext4.isNaN O y = false := fun h => (hnan x y h).2
  have h3 : O.lt y x = true → ext4.isNaN O y = false := fun h => (hnan y x h).1
  have h4 : O.lt y x = true → ext4.isNaN O x = false := fun h => (hnan y x h).2
  have h5 : O.lt x y = true → O.lt y x = false := O.lt_asymm x y
  cases hxy : O.lt x y <;> cases hyx : O.lt y x <;>
    cases hnx : ext4.isNaN O x <;> cases hny : ext4.isNaN O y <;>
      simp_all [ext4.Compare, ext4.Less]

/-- Witness for C10 on the float-like carrier, at a NaN against a number:
`Compare` is -1 there, matching `Less`, and `Compare` of two NaN values
is 0. -/
theorem ext4_compare_less_consistency_witness :
    ext4.Compare floatOrdered none (some 0) = -1 ∧
    ext4.Compare floatOrdered none none = 0 :=
  ⟨(ext4_compare_less_consistency (Option Int) floatOrdered none (some 0)).1.mpr (by decide),
   (ext4_compare_less_consistency (Option Int) floatOrdered none none).2.2.1.mpr (by decide)⟩
